import Mathlib

/-!
Verification development for the async-web-crawler subsystem of the
Petsku01/Docker repository.  The Python modules `storage.py`, `fetcher.py`,
`parser.py` and `crawler.py` are shallowly embedded: pure logic is translated
directly, network and HTML-parsing effects become explicit oracles, and the
file system touched by `CsvStorage.save` becomes explicit state with an error
injection oracle.  Machine floats in the source only ever hold exact decimal
constants (0.0, 0.15, 0.85, clamp bounds), so confidences are modelled as
rationals.
-/

/-! ## Storage (src/async-web-crawler/storage.py) -/

/-- A result dictionary as passed to `CsvStorage.add_result`.  Each field is
wrapped in `Option` to model the presence or absence of the dictionary key
(the Python value `None` for `suspicious` is itself an `Option Bool`). -/
structure ResultDict where
  url : Option String
  suspicious : Option (Option Bool)
  confidence : Option Rat
  content_type : Option String
deriving Repr, DecidableEq

/-- A record held in `CsvStorage.results`: `_validate_result` guarantees the
required keys `url`, `suspicious`, `confidence` are present, so stored
records carry them directly. -/
structure StoredResult where
  url : String
  suspicious : Option Bool
  confidence : Rat
  content_type : Option String
deriving Repr, DecidableEq

/-- The clamp `max(0, min(1, c))` applied by `_validate_result`. -/
def clamp01 (c : Rat) : Rat := max 0 (min 1 c)

/-- `CsvStorage._validate_result`: reject (return `none`) when a required key
is missing; otherwise clamp an out-of-range confidence and accept. -/
def validate_result (r : ResultDict) : Option StoredResult :=
  match r.url, r.suspicious, r.confidence with
  | some u, some s, some c =>
    some ⟨u, s, if 0 ≤ c ∧ c ≤ 1 then c else clamp01 c, r.content_type⟩
  | _, _, _ => none

/-- `CsvStorage` state: the output path and the accumulated results. -/
structure CsvStorage where
  output_file : String
  results : List StoredResult
deriving Repr, DecidableEq

/-- `CsvStorage.add_result`: append the record when validation accepts it. -/
def CsvStorage.add_result (st : CsvStorage) (r : ResultDict) : CsvStorage :=
  match validate_result r with
  | some v => { st with results := st.results ++ [v] }
  | none => st

/-- A CSV cell as serialized by `csv.DictWriter` (`None` becomes the empty
marker, kept abstract here as `null`). -/
inductive Cell
  | null
  | strv (v : String)
  | boolv (v : Bool)
  | ratv (v : Rat)
deriving Repr, DecidableEq

/-- The header row written by `writer.writeheader()` for
`FIELDNAMES = [url, suspicious, confidence, content_type]`. -/
def header_row : List Cell :=
  [.strv "url", .strv "suspicious", .strv "confidence", .strv "content_type"]

/-- The data row `{key: result.get(key) for key in FIELDNAMES}` for one
stored record. -/
def row_of (r : StoredResult) : List Cell :=
  [.strv r.url,
   match r.suspicious with | some b => .boolv b | none => .null,
   .ratv r.confidence,
   match r.content_type with | some s => .strv s | none => .null]

/-- The fallible steps of `CsvStorage.save`, in program order: directory
creation, temp-file creation (`mkstemp`, with `fdopen` folded in since both
leave the same observable state on failure), header write, the i-th
`writerow` call, and the final `os.replace`. -/
inductive SaveStep
  | makedirs
  | mkstemp
  | write_header
  | write_row (i : Nat)
  | replace
deriving Repr, DecidableEq

/-- Observable outcome of one `save` call: the returned boolean, the
destination file afterwards (`none` when it does not exist), and any
leftover temporary file. -/
structure SaveResult where
  ok : Bool
  dest : Option (List (List Cell))
  temp : Option (List (List Cell))
deriving Repr, DecidableEq

/-- The URL-deduplication loop inside `save`: skip a record whose URL is in
`seen_urls`, otherwise keep it and remember its URL. -/
def dedup_loop : List StoredResult → List String → List StoredResult
  | [], _ => []
  | r :: rest, seen =>
    if seen.contains r.url then dedup_loop rest seen
    else r :: dedup_loop rest (r.url :: seen)

/-- The `writer.writerow` loop over the deduplicated records, threading the
temp-file contents; the i-th write fails when the oracle says so, which in
the source raises and aborts the loop. -/
def write_rows (fails : SaveStep → Bool) :
    List StoredResult → Nat → List (List Cell) → Option (List (List Cell))
  | [], _, acc => some acc
  | r :: rest, i, acc =>
    if fails (.write_row i) then none
    else write_rows fails rest (i + 1) (acc ++ [row_of r])

/-- `CsvStorage.save` with an injected failure oracle.  Mirrors the source:
any exception in the write phase removes the temp file and returns `False`
via the outer handler; the destination is touched only by the single
`os.replace` of the fully written temp file. -/
def CsvStorage.save (st : CsvStorage) (dest0 : Option (List (List Cell)))
    (fails : SaveStep → Bool) : SaveResult :=
  if fails .makedirs then ⟨false, dest0, none⟩
  else if fails .mkstemp then ⟨false, dest0, none⟩
  else if fails .write_header then ⟨false, dest0, none⟩
  else
    match write_rows fails (dedup_loop st.results []) 0 [header_row] with
    | none => ⟨false, dest0, none⟩
    | some contents =>
      if fails .replace then ⟨false, dest0, none⟩
      else ⟨true, some contents, none⟩

/-- Spec-side description of first-write-wins deduplication: keep each
record and drop every later record with the same URL. -/
def spec_first_write_wins : List StoredResult → List StoredResult
  | [] => []
  | r :: rest =>
    r :: (spec_first_write_wins rest).filter (fun x => !(x.url == r.url))

/-- The distinct URLs of a list in order of first appearance. -/
def first_occurrences : List String → List String
  | [] => []
  | u :: rest => u :: (first_occurrences rest).filter (fun v => !(v == u))

/-- The all-clear failure oracle: no step of `save` fails. -/
def no_fail : SaveStep → Bool := fun _ => false

/-- An error at or before some `writerow` call: any write-phase failure
strictly before the atomic rename. -/
def fails_in_write_phase (fails : SaveStep → Bool) (nrows : Nat) : Prop :=
  fails .makedirs = true ∨ fails .mkstemp = true ∨ fails .write_header = true ∨
    ∃ i, i < nrows ∧ fails (.write_row i) = true

/-! ## Fetcher (src/async-web-crawler/fetcher.py) -/

/-- `MAX_PAGE_SIZE = 5 * 1024 * 1024` from fetcher.py. -/
def MAX_PAGE_SIZE : Nat := 5 * 1024 * 1024

/-- Whether a character may appear in a URL scheme (CPython urlsplit:
ASCII letters, digits, and the three punctuation marks). -/
def scheme_char (c : Char) : Bool :=
  c.isAlphanum || c == '+' || c == '-' || c == '.'

/-- Split a character list at its first colon, returning the part before and
after; `none` when there is no colon. -/
def split_on_colon : List Char → Option (List Char × List Char)
  | [] => none
  | c :: rest =>
    if c = ':' then some ([], rest)
    else
      match split_on_colon rest with
      | some (pre, post) => some (c :: pre, post)
      | none => none

/-- The scheme extraction of `urllib.parse.urlparse`: the lowercased text
before the first colon when it is a non-empty run of scheme characters
starting with a letter, and the remainder of the URL. -/
def urlparse_scheme_rest (url : String) : String × List Char :=
  match split_on_colon url.toList with
  | some (pre, post) =>
    match pre with
    | [] => ("", url.toList)
    | c :: _ =>
      if c.isAlpha && pre.all scheme_char then
        (String.mk (pre.map Char.toLower), post)
      else ("", url.toList)
  | none => ("", url.toList)

/-- The netloc extraction of `urllib.parse.urlparse` applied after the
scheme: the text after a leading double slash up to the next delimiter. -/
def netloc_of (rest : List Char) : List Char :=
  match rest with
  | '/' :: '/' :: r => r.takeWhile (fun c => !(c == '/' || c == '?' || c == '#'))
  | _ => []

/-- `is_valid_url` from fetcher.py: scheme must be http or https and the
netloc must be non-empty.  (The source has no length check of any kind.) -/
def is_valid_url (url : String) : Bool :=
  let parsed := urlparse_scheme_rest url
  (parsed.1 == "http" || parsed.1 == "https") && !(netloc_of parsed.2).isEmpty

/-- What one `session.get` attempt does: raise one of the caught exception
classes (`asyncio.TimeoutError`, `aiohttp.ClientError` — which includes the
non-2xx errors surfaced by `raise_for_status` — or any other exception), or
produce a response with an optional advertised Content-Length and a body. -/
inductive AttemptOutcome
  | raise
  | ok (content_length : Option Nat) (body : String)

/-- The dictionary returned by `HttpFetcher.fetch_url`. -/
structure FetchResult where
  url : String
  html : Option String
  status : String
  error : Option String
deriving Repr, DecidableEq

/-- Observable trace of one `fetch_url` call: how many GET attempts were
issued, the backoff sleeps performed in order, and how many times the
response body was read (`response.text()`). -/
structure FetchTrace where
  attempts : Nat
  sleeps : List Rat
  body_reads : Nat
deriving Repr, DecidableEq

/-- The advertised-size guard `content_length and int(content_length) >
MAX_PAGE_SIZE` (an absent header skips the guard). -/
def content_length_too_big : Option Nat → Bool
  | some n => decide (MAX_PAGE_SIZE < n)
  | none => false

/-- `HttpFetcher` configuration. -/
structure HttpFetcher where
  max_retries : Nat
  rate_limit : Rat

/-- The `for attempt in range(self.max_retries)` loop of `fetch_url`,
driven by an oracle giving each attempt's outcome.  `fuel` is the number of
remaining attempts (`max_retries - attempt`); on an exception with attempts
remaining the loop sleeps `rate_limit * 2 ^ attempt` and continues, and the
exhausted loop falls through to the failed result. -/
def fetch_loop (url : String) (o : Nat → AttemptOutcome) (rate : Rat) :
    Nat → Nat → FetchResult × FetchTrace
  | _, 0 => (⟨url, none, "failed", some "Max retries exceeded"⟩, ⟨0, [], 0⟩)
  | attempt, fuel + 1 =>
    match o attempt with
    | .ok cl body =>
      if content_length_too_big cl then
        (⟨url, none, "rejected", some "Content too large"⟩, ⟨1, [], 0⟩)
      else if MAX_PAGE_SIZE < body.length then
        (⟨url, none, "rejected", some "Page too large"⟩, ⟨1, [], 1⟩)
      else
        (⟨url, some body, "success", none⟩, ⟨1, [], 1⟩)
    | .raise =>
      let next := fetch_loop url o rate (attempt + 1) fuel
      if fuel = 0 then
        (next.1, ⟨next.2.attempts + 1, next.2.sleeps, next.2.body_reads⟩)
      else
        (next.1,
         ⟨next.2.attempts + 1, rate * 2 ^ attempt :: next.2.sleeps,
          next.2.body_reads⟩)

/-- `HttpFetcher.fetch_url`: empty or whitespace-only URLs (the source's
`not url or not url.strip()`, equivalently: every character is whitespace)
and URLs failing `is_valid_url` short-circuit to an error result before any
attempt. -/
def HttpFetcher.fetch_url (f : HttpFetcher) (url : String)
    (o : Nat → AttemptOutcome) : FetchResult × FetchTrace :=
  if url.toList.all Char.isWhitespace then
    (⟨url, none, "error", some "Empty URL"⟩, ⟨0, [], 0⟩)
  else if is_valid_url url then
    fetch_loop url o f.rate_limit 0 f.max_retries
  else
    (⟨url, none, "error", some "Invalid URL format"⟩, ⟨0, [], 0⟩)

/-! ## Parser (src/async-web-crawler/parser.py) -/

/-- `SUSPICION_THRESHOLD = 5` from parser.py. -/
def SUSPICION_THRESHOLD : Nat := 5

/-- `CONFIDENCE_HIGH = 0.85` from parser.py. -/
def CONFIDENCE_HIGH : Rat := 0.85

/-- `CONFIDENCE_LOW = 0.15` from parser.py. -/
def CONFIDENCE_LOW : Rat := 0.15

/-- The features `analyze` extracts from a BeautifulSoup parse: the number
of div elements with class `content`, and whether `main` and `article`
elements are present. -/
structure Soup where
  content_div_count : Nat
  has_main : Bool
  has_article : Bool
deriving Repr, DecidableEq

/-- `ContentParser`, carrying the BeautifulSoup capability as an oracle: a
parse either yields the extracted features or raises. -/
structure ContentParser where
  soup_of : String → Except String Soup

/-- The record produced by `ContentParser.analyze` and consumed by the
orchestrator (the auxiliary `analysis` metadata key of the source is not
needed by any consumer modelled here and is omitted). -/
structure AnalysisResult where
  url : String
  suspicious : Option Bool
  confidence : Rat
  content_type : String
deriving Repr, DecidableEq

/-- `ContentParser.analyze`: falsy (empty) input short-circuits; a parse
error yields the error record; otherwise the heuristic decision rule
applies. -/
def ContentParser.analyze (p : ContentParser) (html : String) (url : String) :
    AnalysisResult :=
  if html = "" then ⟨url, none, 0, "empty"⟩
  else
    match p.soup_of html with
    | .error _ => ⟨url, none, 0, "error"⟩
    | .ok soup =>
      let is_suspicious :=
        decide (soup.content_div_count < SUSPICION_THRESHOLD) &&
          !soup.has_main && !soup.has_article
      let confidence :=
        if soup.has_main || soup.has_article then CONFIDENCE_HIGH
        else CONFIDENCE_LOW
      let content_type :=
        if 0 < soup.content_div_count then "structured"
        else if soup.has_main || soup.has_article then "semantic"
        else "unstructured"
      ⟨url, some is_suspicious, confidence, content_type⟩

/-! ## Orchestrator (src/async-web-crawler/crawler.py) -/

/-- What `_crawl_single_url` returns: the analysis-shaped record, or — for a
non-success fetch — the fetch dictionary itself. -/
inductive CrawlOutput
  | record (r : AnalysisResult)
  | fetch_failure (f : FetchResult)
deriving Repr, DecidableEq

/-- The record synthesized by the per-URL exception handler. -/
def error_record (url : String) : AnalysisResult := ⟨url, none, 0, "error"⟩

/-- View an analysis record as the dictionary handed to
`CsvStorage.add_result` (all keys present). -/
def to_dict (r : AnalysisResult) : ResultDict :=
  ⟨some r.url, some r.suspicious, some r.confidence, some r.content_type⟩

/-- `WebCrawler`, with its collaborators as oracles that either return or
raise: the robots gate (`check_robots_txt`), the fetcher coroutine, and the
parser (applied to the fetched `html` value). -/
structure WebCrawler where
  check_robots : String → Except String Bool
  fetch : String → Except String FetchResult
  analyze : Option String → String → Except String AnalysisResult

/-- `WebCrawler._crawl_single_url` over one URL with the storage threaded
through (the source's optional storage is modelled as always present): any
oracle exception is caught at this boundary and converted to the error
record, which is also stored. -/
def WebCrawler.crawl_single_url (w : WebCrawler) (st : CsvStorage)
    (url : String) : CrawlOutput × CsvStorage :=
  match w.check_robots url with
  | .error _ =>
    (.record (error_record url), st.add_result (to_dict (error_record url)))
  | .ok false =>
    (.record ⟨url, none, 0, "disallowed"⟩,
     st.add_result (to_dict ⟨url, none, 0, "disallowed"⟩))
  | .ok true =>
    match w.fetch url with
    | .error _ =>
      (.record (error_record url), st.add_result (to_dict (error_record url)))
    | .ok fr =>
      if fr.status ≠ "success" then
        (.fetch_failure fr,
         st.add_result ⟨some url, some none, some 0, some fr.status⟩)
      else
        match w.analyze fr.html url with
        | .error _ =>
          (.record (error_record url),
           st.add_result (to_dict (error_record url)))
        | .ok res => (.record res, st.add_result (to_dict res))

/-- `WebCrawler.crawl`: every URL is processed and contributes exactly one
entry to the result list (the asynchronous gather is modelled in task
order, which is the order the semaphore-wrapped tasks are created in). -/
def WebCrawler.crawl (w : WebCrawler) (urls : List String) (st : CsvStorage) :
    List CrawlOutput × CsvStorage :=
  match urls with
  | [] => ([], st)
  | u :: rest =>
    let step := w.crawl_single_url st u
    let further := w.crawl rest step.2
    (step.1 :: further.1, further.2)

/-- Whether processing a URL raises an unhandled exception inside the
per-URL try block, as determined by the oracles. -/
def WebCrawler.pipeline_raises (w : WebCrawler) (url : String) : Bool :=
  match w.check_robots url with
  | .error _ => true
  | .ok false => false
  | .ok true =>
    match w.fetch url with
    | .error _ => true
    | .ok fr =>
      if fr.status ≠ "success" then false
      else
        match w.analyze fr.html url with
        | .error _ => true
        | .ok _ => false

/-! ## Demo ML crawler (src/Crawler_docker_ml/ml_web_crawler_fixed.py) -/

/-- The URL length guard of `extract_features`.  The source line reads
`if len(url) < 3 or len(url) > 2048):` with a stray closing parenthesis —
a Python syntax error — and is modelled as the evidently intended check
that raises (returns invalid) outside the bounds. -/
def extract_features_length_ok (url : String) : Bool :=
  !(decide (url.length < 3) || decide (2048 < url.length))

/-- A concrete well-formed https URL longer than 2048 characters. -/
def long_url : String :=
  "https://example.com/" ++ String.mk (List.replicate 2100 'a')

/-! ## Helper lemmas -/

theorem clamp01_mem (c : Rat) : 0 ≤ clamp01 c ∧ clamp01 c ≤ 1 := by
  constructor
  · exact le_max_left 0 (min 1 c)
  · exact max_le (by norm_num) (min_le_left 1 c)

theorem validated_conf_mem (c : Rat) :
    0 ≤ (if 0 ≤ c ∧ c ≤ 1 then c else clamp01 c) ∧
      (if 0 ≤ c ∧ c ≤ 1 then c else clamp01 c) ≤ 1 := by
  by_cases h : 0 ≤ c ∧ c ≤ 1
  · rw [if_pos h]; exact h
  · rw [if_neg h]; exact clamp01_mem c

theorem validate_result_conf (r : ResultDict) (v : StoredResult)
    (h : validate_result r = some v) :
    0 ≤ v.confidence ∧ v.confidence ≤ 1 := by
  unfold validate_result at h
  rcases r with ⟨u, s, c, ct⟩
  cases u with
  | none => exact absurd h (by simp)
  | some u =>
    cases s with
    | none => exact absurd h (by simp)
    | some s =>
      cases c with
      | none => exact absurd h (by simp)
      | some c =>
        simp only [Option.some.injEq] at h
        rw [← h]
        exact validated_conf_mem c

theorem write_rows_none_iff (fails : SaveStep → Bool) :
    ∀ (rows : List StoredResult) (i : Nat) (acc : List (List Cell)),
      write_rows fails rows i acc = none ↔
        ∃ j, j < rows.length ∧ fails (.write_row (i + j)) = true := by
  intro rows
  induction rows with
  | nil => intro i acc; simp [write_rows]
  | cons r rest ih =>
    intro i acc
    unfold write_rows
    by_cases hf : fails (.write_row i) = true
    · rw [if_pos hf]
      constructor
      · intro _
        exact ⟨0, by simp, by rw [Nat.add_zero]; exact hf⟩
      · intro _; rfl
    · rw [if_neg hf, ih (i + 1) (acc ++ [row_of r])]
      constructor
      · rintro ⟨j, hj, hfj⟩
        refine ⟨j + 1, by simpa using hj, ?_⟩
        rw [show i + (j + 1) = i + 1 + j by omega]
        exact hfj
      · rintro ⟨j, hj, hfj⟩
        cases j with
        | zero => rw [Nat.add_zero] at hfj; exact absurd hfj hf
        | succ k =>
          refine ⟨k, by simpa using hj, ?_⟩
          rw [show i + 1 + k = i + (k + 1) by omega]
          exact hfj

theorem write_rows_some (fails : SaveStep → Bool) :
    ∀ (rows : List StoredResult) (i : Nat) (acc contents : List (List Cell)),
      write_rows fails rows i acc = some contents →
        contents = acc ++ rows.map row_of := by
  intro rows
  induction rows with
  | nil =>
    intro i acc contents h
    simp only [write_rows, Option.some.injEq] at h
    simp [← h]
  | cons r rest ih =>
    intro i acc contents h
    unfold write_rows at h
    by_cases hf : fails (.write_row i) = true
    · rw [if_pos hf] at h; exact absurd h (by simp)
    · rw [if_neg hf] at h
      have := ih (i + 1) (acc ++ [row_of r]) contents h
      simpa [List.append_assoc] using this

theorem write_rows_no_fail :
    ∀ (rows : List StoredResult) (i : Nat) (acc : List (List Cell)),
      write_rows no_fail rows i acc = some (acc ++ rows.map row_of) := by
  intro rows
  induction rows with
  | nil => intro i acc; simp [write_rows]
  | cons r rest ih =>
    intro i acc
    unfold write_rows
    rw [if_neg (by simp [no_fail])]
    rw [ih (i + 1) (acc ++ [row_of r])]
    simp

theorem dedup_loop_eq_filter :
    ∀ (rs : List StoredResult) (seen : List String),
      dedup_loop rs seen =
        (spec_first_write_wins rs).filter (fun x => !(seen.contains x.url)) := by
  intro rs
  induction rs with
  | nil => intro seen; rfl
  | cons r rest ih =>
    intro seen
    unfold dedup_loop spec_first_write_wins
    simp only [List.filter_cons, List.filter_filter]
    by_cases h : seen.contains r.url = true
    · rw [if_pos h, if_neg (by rw [h]; decide), ih seen]
      refine List.filter_congr ?_
      intro x _
      by_cases hxu : (x.url == r.url) = true
      · have hx : x.url = r.url := eq_of_beq hxu
        rw [hx, h]
        rfl
      · rw [Bool.not_eq_true] at hxu
        simp [hxu]
    · rw [Bool.not_eq_true] at h
      rw [if_neg (by rw [h]; decide), if_pos (by rw [h]; rfl), ih (r.url :: seen)]
      congr 1
      refine List.filter_congr ?_
      intro x _
      rw [List.contains_cons]
      simp [Bool.not_or, Bool.and_comm]

theorem map_url_filter (L : List StoredResult) (u : String) :
    (L.filter (fun x => !(x.url == u))).map (fun r => r.url) =
      (L.map (fun r => r.url)).filter (fun v => !(v == u)) := by
  induction L with
  | nil => rfl
  | cons a l ih =>
    simp only [List.filter_cons, List.map_cons]
    by_cases h : (a.url == u) = true
    · simp [h, ih]
    · rw [Bool.not_eq_true] at h
      simp [h, ih]

theorem spec_map_url :
    ∀ rs : List StoredResult,
      (spec_first_write_wins rs).map (fun r => r.url) =
        first_occurrences (rs.map (fun r => r.url)) := by
  intro rs
  induction rs with
  | nil => rfl
  | cons r rest ih =>
    unfold spec_first_write_wins first_occurrences
    simp only [List.map_cons]
    rw [map_url_filter, ih]

theorem spec_find_first :
    ∀ (rs : List StoredResult) (r : StoredResult),
      r ∈ spec_first_write_wins rs →
        rs.find? (fun x => x.url == r.url) = some r := by
  intro rs
  induction rs with
  | nil => intro r h; simp [spec_first_write_wins] at h
  | cons a rest ih =>
    intro r h
    unfold spec_first_write_wins at h
    rw [List.mem_cons] at h
    rcases h with rfl | h
    · exact List.find?_cons_of_pos rest (by simp)
    · have hq := List.of_mem_filter h
      have hm := List.mem_of_mem_filter h
      simp only [Bool.not_eq_true'] at hq
      have hne : (a.url == r.url) = false := by
        rw [beq_eq_false_iff_ne] at hq ⊢
        exact fun hc => hq hc.symm
      rw [List.find?_cons_of_neg rest (by simp [hne])]
      exact ih r hm

theorem fetch_loop_all_raise (url : String) (o : Nat → AttemptOutcome) (rate : Rat)
    (h : ∀ i, o i = .raise) :
    ∀ (fuel attempt : Nat),
      fetch_loop url o rate attempt fuel =
        (⟨url, none, "failed", some "Max retries exceeded"⟩,
         ⟨fuel, (List.range (fuel - 1)).map (fun j => rate * 2 ^ (attempt + j)), 0⟩) := by
  intro fuel
  induction fuel with
  | zero => intro attempt; rfl
  | succ k ih =>
    intro attempt
    unfold fetch_loop
    rw [h attempt]
    rw [ih (attempt + 1)]
    cases k with
    | zero => simp
    | succ m =>
      have harr : ((fun j => rate * 2 ^ (attempt + j)) ∘ Nat.succ) =
          (fun j => rate * 2 ^ (attempt + 1 + j)) := by
        funext j
        show rate * 2 ^ (attempt + (j + 1)) = rate * 2 ^ (attempt + 1 + j)
        rw [Nat.add_assoc, Nat.add_comm 1 j]
      simp only [Nat.succ_ne_zero, if_false, Nat.add_sub_cancel, Prod.mk.injEq,
        FetchTrace.mk.injEq, List.range_succ_eq_map, List.map_cons, List.map_map,
        Nat.add_zero, harr, and_true, true_and]

theorem crawl_single_url_fst (w : WebCrawler) (st st2 : CsvStorage) (url : String) :
    (w.crawl_single_url st url).1 = (w.crawl_single_url st2 url).1 := by
  unfold WebCrawler.crawl_single_url
  cases w.check_robots url with
  | error e => rfl
  | ok b =>
    cases b with
    | false => rfl
    | true =>
      cases w.fetch url with
      | error e => rfl
      | ok fr =>
        dsimp only
        split
        · rfl
        · cases w.analyze fr.html url <;> rfl

theorem crawl_fst (w : WebCrawler) :
    ∀ (urls : List String) (st : CsvStorage),
      (w.crawl urls st).1 =
        urls.map (fun u => (w.crawl_single_url (CsvStorage.mk "" []) u).1) := by
  intro urls
  induction urls with
  | nil => intro st; rfl
  | cons u rest ih =>
    intro st
    unfold WebCrawler.crawl
    dsimp only
    rw [List.map_cons]
    congr 1
    · exact crawl_single_url_fst w st (CsvStorage.mk "" []) u
    · exact ih _

/-! ## Claim theorems -/

/-- Claim C1: if any error occurs during the write phase of a flush (temp
creation, header or row writing — anything before the rename), `save`
returns false, leaves no temporary file behind, and the destination file is
exactly as it was before the call; in every execution the destination is
either unchanged or — only on a successful return — the complete
header-plus-rows file installed by the single atomic rename. -/
theorem claim1_flush_atomic (st : CsvStorage) (dest0 : Option (List (List Cell)))
    (fails : SaveStep → Bool) :
    (fails_in_write_phase fails (dedup_loop st.results []).length →
        st.save dest0 fails = ⟨false, dest0, none⟩) ∧
      (st.save dest0 fails).temp = none ∧
      ((st.save dest0 fails).dest = dest0 ∨
        ((st.save dest0 fails).ok = true ∧
          (st.save dest0 fails).dest =
            some (header_row :: (dedup_loop st.results []).map row_of))) := by
  unfold CsvStorage.save
  by_cases h1 : fails SaveStep.makedirs = true
  · rw [if_pos h1]; exact ⟨fun _ => rfl, rfl, Or.inl rfl⟩
  · rw [if_neg h1]
    by_cases h2 : fails SaveStep.mkstemp = true
    · rw [if_pos h2]; exact ⟨fun _ => rfl, rfl, Or.inl rfl⟩
    · rw [if_neg h2]
      by_cases h3 : fails SaveStep.write_header = true
      · rw [if_pos h3]; exact ⟨fun _ => rfl, rfl, Or.inl rfl⟩
      · rw [if_neg h3]
        cases hw : write_rows fails (dedup_loop st.results []) 0 [header_row] with
        | none => exact ⟨fun _ => rfl, rfl, Or.inl rfl⟩
        | some contents =>
          have hnone : ∀ i, i < (dedup_loop st.results []).length →
              fails (SaveStep.write_row i) = true → False := by
            intro i hi hfi
            have : write_rows fails (dedup_loop st.results []) 0 [header_row] = none :=
              (write_rows_none_iff fails _ 0 _).mpr
                ⟨i, hi, by rw [Nat.zero_add]; exact hfi⟩
            rw [hw] at this
            exact absurd this (by simp)
          have hwp : fails_in_write_phase fails (dedup_loop st.results []).length → False := by
            rintro (h | h | h | ⟨i, hi, hfi⟩)
            · exact absurd h h1
            · exact absurd h h2
            · exact absurd h h3
            · exact hnone i hi hfi
          have hc := write_rows_some fails _ 0 _ contents hw
          dsimp only
          by_cases h5 : fails SaveStep.replace = true
          · rw [if_pos h5]
            exact ⟨fun hx => absurd hx (fun hy => hwp hy), rfl, Or.inl rfl⟩
          · rw [if_neg h5]
            refine ⟨fun hx => absurd hx (fun hy => hwp hy), rfl, Or.inr ⟨rfl, ?_⟩⟩
            rw [hc]
            rfl

/-- Witness for C1 at a concrete store, prior destination and failure
oracle that fails the first row write. -/
theorem claim1_flush_atomic_witness :
    (CsvStorage.mk "out.csv"
        [⟨"https://a.com", some false, 1/2, some "structured"⟩]).save
      (some [[Cell.strv "old"]]) (fun s => decide (s = SaveStep.write_row 0)) =
      ⟨false, some [[Cell.strv "old"]], none⟩ :=
  (claim1_flush_atomic _ _ _).1
    (Or.inr (Or.inr (Or.inr ⟨0, by decide, by decide⟩)))

/-- Claim C2: with no injected failure, `save` writes the header followed by
exactly the first-write-wins deduplicated records: the written row list
equals the spec-side first-write-wins function, the written URLs are
distinct and appear in first-added order, and every written record is the
first record that was added with its URL. -/
theorem claim2_first_write_wins (st : CsvStorage) (dest0 : Option (List (List Cell))) :
    (st.save dest0 no_fail).ok = true ∧
      (st.save dest0 no_fail).dest =
        some (header_row :: (spec_first_write_wins st.results).map row_of) ∧
      dedup_loop st.results [] = spec_first_write_wins st.results ∧
      (dedup_loop st.results []).map (fun r => r.url) =
        first_occurrences (st.results.map (fun r => r.url)) ∧
      (dedup_loop st.results []).all
          (fun r => decide (st.results.find? (fun x => x.url == r.url) = some r)) =
        true := by
  have hd : dedup_loop st.results [] = spec_first_write_wins st.results := by
    rw [dedup_loop_eq_filter]
    have ht : (fun x : StoredResult => !(List.contains [] x.url)) = fun _ => true := by
      funext x
      rfl
    rw [ht, List.filter_true]
  have hsave : st.save dest0 no_fail =
      ⟨true, some (header_row :: (dedup_loop st.results []).map row_of), none⟩ := by
    unfold CsvStorage.save
    rw [write_rows_no_fail (dedup_loop st.results []) 0 [header_row]]
    rfl
  refine ⟨by rw [hsave], by rw [hsave, hd], hd, ?_, ?_⟩
  · rw [hd]
    exact spec_map_url st.results
  · rw [hd, List.all_eq_true]
    intro r hr
    simp only [decide_eq_true_eq]
    exact spec_find_first st.results r hr

/-- Claim C3: when every attempt fails transiently, `fetch_url` performs
exactly `max_retries` GET attempts, sleeps `rate_limit * 2 ^ attempt` after
each failed attempt except the last (attempt indexed from 0), never reads a
body, and returns the failed result with reason Max retries exceeded. -/
theorem claim3_retry_backoff (f : HttpFetcher) (url : String)
    (o : Nat → AttemptOutcome) (h0 : ¬ url.toList.all Char.isWhitespace = true)
    (h1 : is_valid_url url = true) (h2 : ∀ i, o i = .raise) :
    f.fetch_url url o =
      (⟨url, none, "failed", some "Max retries exceeded"⟩,
       ⟨f.max_retries,
        (List.range (f.max_retries - 1)).map (fun a => f.rate_limit * 2 ^ a),
        0⟩) := by
  unfold HttpFetcher.fetch_url
  rw [if_neg h0, if_pos h1,
    fetch_loop_all_raise url o f.rate_limit h2 f.max_retries 0]
  simp

/-- Witness for C3 with `max_retries = 2`: exactly 2 attempts and one
backoff sleep of `rate_limit * 2 ^ 0`. -/
theorem claim3_retry_backoff_witness :
    (HttpFetcher.mk 2 5).fetch_url "https://example.com" (fun _ => .raise) =
      (⟨"https://example.com", none, "failed", some "Max retries exceeded"⟩,
       ⟨2, [5], 0⟩) := by
  have h := claim3_retry_backoff (HttpFetcher.mk 2 5) "https://example.com"
    (fun _ => .raise) (by decide) (by decide) (fun i => rfl)
  rw [h]
  simp [List.range_succ]

/-- Claim C6: an advertised Content-Length over the 5 MiB cap makes
`fetch_url` return the rejected result from the very first attempt — one
GET, no sleep, and no body read; a fully read body over the cap likewise
returns rejected with one GET, no sleep and exactly one body read. -/
theorem claim6_size_cap (f : HttpFetcher) (url : String)
    (o : Nat → AttemptOutcome) (h0 : ¬ url.toList.all Char.isWhitespace = true)
    (h1 : is_valid_url url = true) (hm : 0 < f.max_retries) :
    (∀ n body, o 0 = .ok (some n) body → MAX_PAGE_SIZE < n →
        f.fetch_url url o =
          (⟨url, none, "rejected", some "Content too large"⟩, ⟨1, [], 0⟩)) ∧
      ∀ cl body, o 0 = .ok cl body → content_length_too_big cl = false →
        MAX_PAGE_SIZE < body.length →
        f.fetch_url url o =
          (⟨url, none, "rejected", some "Page too large"⟩, ⟨1, [], 1⟩) := by
  obtain ⟨m, hm2⟩ : ∃ m, f.max_retries = m + 1 := ⟨f.max_retries - 1, by omega⟩
  unfold HttpFetcher.fetch_url
  rw [if_neg h0, if_pos h1, hm2]
  constructor
  · intro n body hob hn
    unfold fetch_loop
    rw [hob]
    dsimp only
    rw [if_pos (by simp [content_length_too_big, hn])]
  · intro cl body hob hcl hlen
    unfold fetch_loop
    rw [hob]
    dsimp only
    rw [if_neg (by rw [hcl]; decide), if_pos hlen]

/-- Witness for C6: a first response advertising 5 MiB + 1 is rejected with
one attempt, no sleeps and no body read. -/
theorem claim6_size_cap_witness :
    (HttpFetcher.mk 3 5).fetch_url "https://example.com"
        (fun _ => .ok (some (5 * 1024 * 1024 + 1)) "") =
      (⟨"https://example.com", none, "rejected", some "Content too large"⟩,
       ⟨1, [], 0⟩) :=
  (claim6_size_cap (HttpFetcher.mk 3 5) "https://example.com"
      (fun _ => .ok (some (5 * 1024 * 1024 + 1)) "") (by decide) (by decide)
      (by decide)).1
    (5 * 1024 * 1024 + 1) "" rfl (by decide)

/-- Claim C7: a record carrying the required keys is always accepted by
`add_result`, with its confidence clamped into the unit interval exactly
when it was out of range; and every store whose persisted confidences lie
in the unit interval keeps that property across any `add_result` call. -/
theorem claim7_confidence_clamped (st : CsvStorage) (u : String)
    (sp : Option Bool) (c : Rat) (ct : Option String) (r : ResultDict) :
    ((st.add_result ⟨some u, some sp, some c, ct⟩).results =
        st.results ++ [⟨u, sp, if 0 ≤ c ∧ c ≤ 1 then c else clamp01 c, ct⟩]) ∧
      (0 ≤ (if 0 ≤ c ∧ c ≤ 1 then c else clamp01 c) ∧
        (if 0 ≤ c ∧ c ≤ 1 then c else clamp01 c) ≤ 1) ∧
      (¬(0 ≤ c ∧ c ≤ 1) →
        (if 0 ≤ c ∧ c ≤ 1 then c else clamp01 c) = clamp01 c) ∧
      (st.results.all (fun x => decide (0 ≤ x.confidence ∧ x.confidence ≤ 1)) =
          true →
        (st.add_result r).results.all
            (fun x => decide (0 ≤ x.confidence ∧ x.confidence ≤ 1)) = true) := by
  refine ⟨rfl, validated_conf_mem c, fun h => by rw [if_neg h], ?_⟩
  intro hall
  unfold CsvStorage.add_result
  cases hv : validate_result r with
  | none => exact hall
  | some v =>
    dsimp only
    rw [List.all_append, hall, Bool.true_and]
    simp only [List.all_cons, List.all_nil, Bool.and_true, decide_eq_true_eq]
    exact validate_result_conf r v hv

/-- Witness for C7: an out-of-range confidence of 3/2 is accepted and
stored clamped to 1. -/
theorem claim7_confidence_clamped_witness :
    ((CsvStorage.mk "out.csv" []).add_result
        ⟨some "https://a.com", some (some false), some 2, none⟩).results =
      [⟨"https://a.com", some false, 1, none⟩] := by
  have h := claim7_confidence_clamped (CsvStorage.mk "out.csv" [])
    "https://a.com" (some false) 2 none ⟨none, none, none, none⟩
  refine h.1.trans ?_
  norm_num [clamp01, min_def, max_def]

/-- Claim C10: flushing a store with no records succeeds and replaces
whatever was at the destination (including a previously existing non-empty
file) with a file holding only the header row. -/
theorem claim10_empty_store_header_only (dest0 : Option (List (List Cell)))
    (file : String) :
    (CsvStorage.mk file []).save dest0 no_fail = ⟨true, some [header_row], none⟩ :=
  rfl

/-- Claim C4: for every non-empty HTML input whose parse succeeds, `analyze`
returns suspicious = (content-marker count < 5 AND no main/article section),
confidence 0.85 when a main or article section is present and 0.15
otherwise, and content type structured / semantic / unstructured decided by
marker count and semantic-section presence in that order. -/
theorem claim4_decision_rule (p : ContentParser) (html url : String)
    (soup : Soup) (h1 : html ≠ "") (h2 : p.soup_of html = .ok soup) :
    (p.analyze html url).suspicious =
        some (decide (soup.content_div_count < 5) &&
          !(soup.has_main || soup.has_article)) ∧
      (p.analyze html url).confidence =
        (if soup.has_main || soup.has_article then 0.85 else 0.15) ∧
      (p.analyze html url).content_type =
        (if 0 < soup.content_div_count then "structured"
         else if soup.has_main || soup.has_article then "semantic"
         else "unstructured") := by
  obtain ⟨cnt, m, a⟩ := soup
  unfold ContentParser.analyze
  rw [if_neg h1, h2]
  dsimp only
  refine ⟨?_, rfl, rfl⟩
  cases m <;> cases a <;> simp [SUSPICION_THRESHOLD]

/-- Witness for C4 on a page with 6 content markers and no semantic
section: not suspicious, low confidence, structured. -/
theorem claim4_decision_rule_witness :
    ((ContentParser.mk (fun _ => .ok ⟨6, false, false⟩)).analyze "x"
          "https://a.com").suspicious = some false ∧
      ((ContentParser.mk (fun _ => .ok ⟨6, false, false⟩)).analyze "x"
          "https://a.com").confidence = 0.15 ∧
      ((ContentParser.mk (fun _ => .ok ⟨6, false, false⟩)).analyze "x"
          "https://a.com").content_type = "structured" := by
  have h := claim4_decision_rule (ContentParser.mk (fun _ => .ok ⟨6, false, false⟩))
    "x" "https://a.com" ⟨6, false, false⟩ (by decide) rfl
  exact ⟨h.1.trans (by decide), h.2.1.trans (by norm_num), h.2.2.trans (by decide)⟩

/-- Counterexample to claim C5 as stated: on empty input the source returns
suspicious = None (null), not false, and a whitespace-only (non-empty)
input is not short-circuited to the empty record at all — it is parsed,
and with no markers and no semantic section (what BeautifulSoup extracts
from whitespace) it classifies as unstructured, not empty. -/
theorem claim5_counterexample :
    ((ContentParser.mk (fun _ => .ok ⟨0, false, false⟩)).analyze ""
          "https://a.com").suspicious = none ∧
      ¬ ((ContentParser.mk (fun _ => .ok ⟨0, false, false⟩)).analyze ""
          "https://a.com").suspicious = some false ∧
      ((ContentParser.mk (fun _ => .ok ⟨0, false, false⟩)).analyze " "
          "https://a.com").content_type = "unstructured" ∧
      ¬ ((ContentParser.mk (fun _ => .ok ⟨0, false, false⟩)).analyze " "
          "https://a.com").content_type = "empty" := by
  decide

/-- Claim C5 as amended: only the genuinely empty string short-circuits,
and it yields suspicious = null (no judgment), confidence 0, content type
empty; every non-empty input — whitespace-only included — goes through the
parse path and never yields content type empty. -/
theorem claim5_empty_short_circuit (p : ContentParser) (url : String) :
    p.analyze "" url = ⟨url, none, 0, "empty"⟩ ∧
      ∀ html : String, html ≠ "" → (p.analyze html url).content_type ≠ "empty" := by
  constructor
  · rfl
  · intro html h
    unfold ContentParser.analyze
    rw [if_neg h]
    cases hp : p.soup_of html with
    | error e =>
      dsimp only
      decide
    | ok soup =>
      dsimp only
      split
      · decide
      · split <;> decide

/-- Witness for C5 (amended) at a concrete parser, for the empty string and
a whitespace-only string. -/
theorem claim5_empty_short_circuit_witness :
    (ContentParser.mk (fun _ => .ok ⟨0, false, false⟩)).analyze "" "https://a.com" =
        ⟨"https://a.com", none, 0, "empty"⟩ ∧
      ((ContentParser.mk (fun _ => .ok ⟨0, false, false⟩)).analyze " "
          "https://a.com").content_type ≠ "empty" :=
  ⟨(claim5_empty_short_circuit (ContentParser.mk (fun _ => .ok ⟨0, false, false⟩))
      "https://a.com").1,
   (claim5_empty_short_circuit (ContentParser.mk (fun _ => .ok ⟨0, false, false⟩))
      "https://a.com").2 " " (by decide)⟩

/-- Claim C8: every crawl produces exactly one output per URL, each URL's
output depends only on that URL's own pipeline (so no URL's failure can
change or abort another's), and a URL whose pipeline raises anywhere inside
the per-URL try block yields the error record with suspicious = null,
confidence 0 and content type error, which is also handed to storage. -/
theorem claim8_per_url_isolation (w : WebCrawler) (st : CsvStorage)
    (urls : List String) (url : String) :
    (w.crawl urls st).1.length = urls.length ∧
      (w.crawl urls st).1 =
        urls.map (fun u => (w.crawl_single_url (CsvStorage.mk "" []) u).1) ∧
      (w.pipeline_raises url = true →
        (w.crawl_single_url st url).1 = .record (error_record url) ∧
          (w.crawl_single_url st url).2 =
            st.add_result (to_dict (error_record url))) := by
  refine ⟨?_, crawl_fst w urls st, ?_⟩
  · rw [crawl_fst w urls st]
    exact List.length_map urls _
  · intro h
    unfold WebCrawler.pipeline_raises at h
    unfold WebCrawler.crawl_single_url
    cases hc : w.check_robots url with
    | error e => exact ⟨rfl, rfl⟩
    | ok b =>
      rw [hc] at h
      cases b with
      | false => simp at h
      | true =>
        cases hf : w.fetch url with
        | error e => exact ⟨rfl, rfl⟩
        | ok fr =>
          rw [hf] at h
          dsimp only at h ⊢
          by_cases hs : fr.status ≠ "success"
          · rw [if_pos hs] at h
            simp at h
          · rw [if_neg hs] at h
            rw [if_neg hs]
            cases ha : w.analyze fr.html url with
            | error e => exact ⟨rfl, rfl⟩
            | ok res =>
              rw [ha] at h
              simp at h

/-- Witness for C8: a robots oracle that raises makes the single-URL
pipeline yield and store the error record. -/
theorem claim8_per_url_isolation_witness :
    ((WebCrawler.mk (fun _ => .error "boom")
          (fun u => .ok ⟨u, none, "failed", none⟩)
          (fun _ _ => .error "unused")).crawl_single_url
        (CsvStorage.mk "out.csv" []) "https://a.com").1 =
      CrawlOutput.record (error_record "https://a.com") :=
  ((claim8_per_url_isolation
      (WebCrawler.mk (fun _ => .error "boom")
        (fun u => .ok ⟨u, none, "failed", none⟩)
        (fun _ _ => .error "unused"))
      (CsvStorage.mk "out.csv" []) [] "https://a.com").2.2 rfl).1

set_option maxRecDepth 4000 in
/-- Counterexample to claim C9 as stated: a well-formed https URL 2120
characters long — far above the claimed upper bound — is accepted by
`is_valid_url` (which checks only scheme and host, never length), and the
Fetcher then issues a network request for it: one GET attempt occurs and
the fetch succeeds. -/
theorem claim9_counterexample :
    2048 < long_url.length ∧ is_valid_url long_url = true ∧
      ((HttpFetcher.mk 3 5).fetch_url long_url
          (fun _ => .ok none "page")).2.attempts = 1 ∧
      ((HttpFetcher.mk 3 5).fetch_url long_url
          (fun _ => .ok none "page")).1.status = "success" := by
  have hlen : long_url.length = 2120 := by
    show ("https://example.com/".data ++ List.replicate 2100 'a').length = 2120
    rw [List.length_append, List.length_replicate]
    decide
  refine ⟨by rw [hlen]; norm_num, by decide, ?_, ?_⟩ <;> rfl

set_option maxRecDepth 4000 in
/-- Claim C9 as amended: a 3-to-2048-character length guard exists only in
the demo ML crawler's `extract_features` (whose guard line is itself a
Python syntax error as written); the async-web-crawler's `is_valid_url`
imposes no length bound, so the Fetcher issues a network request for an
over-long well-formed URL. -/
theorem claim9_no_length_bound (url : String)
    (h : url.length < 3 ∨ 2048 < url.length) :
    extract_features_length_ok url = false ∧
      is_valid_url long_url = true ∧ 2048 < long_url.length ∧
      ((HttpFetcher.mk 3 5).fetch_url long_url
          (fun _ => .ok none "page")).2.attempts = 1 := by
  have hlen : long_url.length = 2120 := by
    show ("https://example.com/".data ++ List.replicate 2100 'a').length = 2120
    rw [List.length_append, List.length_replicate]
    decide
  refine ⟨?_, by decide, by rw [hlen]; norm_num, rfl⟩
  unfold extract_features_length_ok
  rcases h with h | h <;> simp [h]

/-- Witness for C9 (amended) at the concrete too-short URL ab. -/
theorem claim9_no_length_bound_witness :
    extract_features_length_ok "ab" = false ∧
      is_valid_url long_url = true ∧ 2048 < long_url.length ∧
      ((HttpFetcher.mk 3 5).fetch_url long_url
          (fun _ => .ok none "page")).2.attempts = 1 :=
  claim9_no_length_bound "ab" (Or.inl (by decide))
